import Mathlib

/-!
Verification of the LearnForge frontend core: validation/sanitization layer,
rate limiter, API client, auth/session machine and WebSocket session manager.
Definitions are shallow embeddings of the TypeScript sources in src/.
-/

namespace LearnForge

/-! ### JavaScript string primitives

Boolean substring search modelling String.prototype.includes, plus helpers
for the case-insensitive regular expressions used by the validation layer. -/

/-- Boolean list-prefix test (structural; used to build substring search). -/
def isPrefixB : List Char → List Char → Bool
  | [], _ => true
  | _ :: _, [] => false
  | a :: p, b :: s => a == b && isPrefixB p s

/-- Boolean list-infix test: does p occur contiguously inside s? -/
def isInfixB (p : List Char) : List Char → Bool
  | [] => p.isEmpty
  | c :: rest => isPrefixB p (c :: rest) || isInfixB p rest

/-- JS s.includes(pat). -/
def strIncludes (s pat : String) : Bool := isInfixB pat.toList s.toList

/-- Case-insensitive substring search, for the /.../i regular expressions. -/
def strIncludesCI (s pat : String) : Bool :=
  isInfixB (pat.toList.map Char.toLower) (s.toList.map Char.toLower)

/-- JS truthiness of an optional string: undefined and the empty string are falsy. -/
def truthyStr : Option String → Bool
  | none => false
  | some s => !(s == "")

/-- Optional-chaining JS m2.includes(pat) where m2 may be undefined. -/
def optIncludes : Option String → String → Bool
  | none, _ => false
  | some s, pat => strIncludes s pat

/-! ### Sanitization (src/utils/validation.ts, sanitizeInput)

The source strips the control characters matched by the regular expression
[\x00-\x1F\x7F], trims whitespace, and runs DOMPurify.sanitize with
ALLOWED_TAGS [] and ALLOWED_ATTR []. DOMPurify is a third-party library that
is not part of this repository; purifyChars below is modelled from the spec
(sanitizeText neutralizes HTML/script content): with no allowed tags the
sanitizer removes every HTML tag while keeping the surrounding text, drops an
unterminated tag to the end of the input, and serializes a literal less-than
sign that does not open a tag as the entity for it. -/

/-- Character class of the source regex [\x00-\x1F\x7F]. -/
def isControlChar (c : Char) : Bool := c.toNat < 32 || c.toNat == 127

/-- Removal of null bytes and control characters (the first replace call). -/
def stripControl (l : List Char) : List Char := l.filter (fun c => !isControlChar c)

/-- White space set of JS String.prototype.trim (tab, line terminators, space,
no-break space, BOM and the Unicode space separators). -/
def isJsWS (c : Char) : Bool :=
  c == ' ' || c == '\t' || c == '\n' || c.toNat == 11 || c.toNat == 12 ||
  c == '\r' || c.toNat == 160 || c.toNat == 0x1680 ||
  (0x2000 ≤ c.toNat && c.toNat ≤ 0x200A) || c.toNat == 0x2028 ||
  c.toNat == 0x2029 || c.toNat == 0x202F || c.toNat == 0x205F ||
  c.toNat == 0x3000 || c.toNat == 0xFEFF

/-- Removal of trailing characters satisfying p. -/
def dropTrailing (p : Char → Bool) (l : List Char) : List Char :=
  (l.reverse.dropWhile p).reverse

/-- JS String.prototype.trim on a character list. -/
def trimChars (l : List Char) : List Char := dropTrailing isJsWS (l.dropWhile isJsWS)

/-- JS String.prototype.trim. -/
def trimStr (s : String) : String := ⟨trimChars s.toList⟩

/-- Does this character open an HTML tag after a less-than sign? Browsers treat
a less-than sign as markup only when followed by a letter, slash, bang or
question mark. -/
def isTagStart (c : Char) : Bool := c.isAlpha || c == '/' || c == '!' || c == '?'

/-- Is the head of the list a tag-starting character? -/
def headTag : List Char → Bool
  | [] => false
  | c :: _ => isTagStart c

/-- Scanner for the modelled HTML sanitizer: the flag records whether the
scan is inside a tag (skipping until after the closing greater-than sign). -/
def purifyGo : Bool → List Char → List Char
  | _, [] => []
  | true, c :: rest => if c == '>' then purifyGo false rest else purifyGo true rest
  | false, c :: rest =>
    if c == '<' then
      if headTag rest then purifyGo true rest
      else '&' :: 'l' :: 't' :: ';' :: purifyGo false rest
    else c :: purifyGo false rest

/-- Modelled from the spec: DOMPurify.sanitize with ALLOWED_TAGS [] and
ALLOWED_ATTR [] (the DOMPurify library itself is not in the repository).
Every tag is removed while its surrounding text is kept, an unterminated tag
is dropped to the end of the input, and a literal less-than sign that does
not open a tag is serialized as the less-than entity. -/
def purifyChars (l : List Char) : List Char := purifyGo false l

/-- Runtime values crossing the sanitizer boundary: a string or any
non-string JS value. -/
inductive JsValue where
  | str (s : String)
  | nonString
deriving DecidableEq

/-- The string path of sanitizeInput: strip control characters, trim,
sanitize HTML. -/
def sanitizeStr (s : String) : String :=
  ⟨purifyChars (trimChars (stripControl s.toList))⟩

/-- sanitizeInput from src/utils/validation.ts: non-string input yields the
empty string; otherwise control characters are stripped, the result is
trimmed, and HTML is sanitized with no tags allowed. -/
def sanitizeInput : JsValue → String
  | .nonString => ""
  | .str s => sanitizeStr s

/-! ### Message and identifier validation (src/utils/validation.ts) -/

/-- Validation outcome record mirroring the isValid/error object literals. -/
structure ValidationResult where
  isValid : Bool
  error : Option String
deriving DecidableEq

/-- VALIDATION_LIMITS.MESSAGE_MAX_LENGTH. -/
def MESSAGE_MAX_LENGTH : Nat := 1000

/-- VALIDATION_LIMITS.MESSAGE_MIN_LENGTH. -/
def MESSAGE_MIN_LENGTH : Nat := 1

/-- VALIDATION_LIMITS.SESSION_ID_MAX_LENGTH. -/
def SESSION_ID_MAX_LENGTH : Nat := 100

/-- RATE_LIMITS.MESSAGE_COOLDOWN_MS. -/
def MESSAGE_COOLDOWN_MS : Int := 1000

/-- RATE_LIMITS.MAX_MESSAGES_PER_MINUTE. -/
def MAX_MESSAGES_PER_MINUTE : Nat := 30

/-- Word character of the regex class backslash-w: letters, digits, underscore. -/
def isWordChar (c : Char) : Bool := c.isAlpha || c.isDigit || c == '_'

/-- Match of the dangerous pattern on-word-equals at the head of the
(lowercased) character list: the letters o n, one or more word characters,
optional whitespace, then an equals sign. -/
def onEqHere : List Char → Bool
  | 'o' :: 'n' :: rest =>
    !(rest.takeWhile isWordChar).isEmpty &&
    (match (rest.dropWhile isWordChar).dropWhile isJsWS with
     | '=' :: _ => true
     | _ => false)
  | _ => false

/-- Scan of the inline event-handler regex over every position. -/
def hasOnEq : List Char → Bool
  | [] => false
  | c :: rest => onEqHere (c :: rest) || hasOnEq rest

/-- Match of the pattern expression-whitespace-parenthesis at the head. -/
def exprParenHere (l : List Char) : Bool :=
  isPrefixB "expression".toList l &&
  (match (l.drop 10).dropWhile isJsWS with
   | '(' :: _ => true
   | _ => false)

/-- Scan of the CSS expression regex over every position. -/
def hasExprParen : List Char → Bool
  | [] => false
  | c :: rest => exprParenHere (c :: rest) || hasExprParen rest

/-- The dangerousPatterns denylist of validateMessage, applied to the
sanitized text (the regexes are case-insensitive, hence the lowercasing). -/
def hasDangerousPattern (s : String) : Bool :=
  let low := s.toList.map Char.toLower
  isInfixB "<script".toList low ||
  isInfixB "javascript:".toList low ||
  hasOnEq low ||
  isInfixB "data:text/html".toList low ||
  isInfixB "vbscript:".toList low ||
  hasExprParen low

/-- validateMessage from src/utils/validation.ts: sanitize, then check
emptiness, the length cap, and the injection denylist. -/
def validateMessage (message : String) : ValidationResult :=
  let sanitized := sanitizeStr message
  if sanitized.length < MESSAGE_MIN_LENGTH then
    ⟨false, some "Message cannot be empty"⟩
  else if MESSAGE_MAX_LENGTH < sanitized.length then
    ⟨false, some "Message too long. Please keep it under 1000 characters."⟩
  else if hasDangerousPattern sanitized then
    ⟨false, some "Message contains potentially dangerous content"⟩
  else
    ⟨true, none⟩

/-- Character class of the session-id regex [a-zA-Z0-9-_]. -/
def isSessionIdChar (c : Char) : Bool := c.isAlpha || c.isDigit || c == '-' || c == '_'

/-- validateSessionId from src/utils/validation.ts: an empty (falsy) input is
rejected up front; the input is then sanitized and the sanitized value is
checked for emptiness, the length cap, and the allowed character class. -/
def validateSessionId (sessionId : String) : ValidationResult :=
  if sessionId == "" then ⟨false, some "Session ID is required"⟩
  else
    let sanitized := sanitizeStr sessionId
    if sanitized.length == 0 then ⟨false, some "Session ID cannot be empty"⟩
    else if SESSION_ID_MAX_LENGTH < sanitized.length then
      ⟨false, some "Session ID too long"⟩
    else if !sanitized.toList.all isSessionIdChar then
      ⟨false, some "Session ID contains invalid characters"⟩
    else ⟨true, none⟩

/-! ### Rate limiter (src/utils/validation.ts, class RateLimiter)

The attempts map is an association list from key to the recorded timestamp
list; Date.now() is passed in explicitly as the now argument of each call. -/

/-- Map.get with the JS default of an empty array. -/
def mapGet (m : List (String × List Int)) (k : String) : List Int :=
  match m.find? (fun p => p.1 == k) with
  | some p => p.2
  | none => []

/-- Map.set: replace the binding for k, or append a new one. -/
def mapSet (m : List (String × List Int)) (k : String) (v : List Int) :
    List (String × List Int) :=
  match m with
  | [] => [(k, v)]
  | p :: rest => if p.1 == k then (k, v) :: rest else p :: mapSet rest k v

/-- Map.delete. -/
def mapDel (m : List (String × List Int)) (k : String) : List (String × List Int) :=
  m.filter (fun p => !(p.1 == k))

/-- State of a RateLimiter instance. -/
structure RateLimiter where
  attempts : List (String × List Int)
deriving DecidableEq

/-- A freshly constructed RateLimiter. -/
def RateLimiter.new : RateLimiter := ⟨[]⟩

/-- isAllowed: prune entries older than windowMs, refuse without writing back
when the cap is already reached, otherwise record now and allow. -/
def RateLimiter.isAllowed (rl : RateLimiter) (key : String) (maxAttempts : Nat)
    (windowMs now : Int) : Bool × RateLimiter :=
  let attempts := mapGet rl.attempts key
  let validAttempts := attempts.filter (fun time => now - time < windowMs)
  if maxAttempts ≤ validAttempts.length then
    (false, rl)
  else
    (true, ⟨mapSet rl.attempts key (validAttempts ++ [now])⟩)

/-- Math.min over the pruned list; the empty case corresponds to the JS
value Infinity and is only reached when maxAttempts is zero. -/
def minList : List Int → Int
  | [] => 0
  | [a] => a
  | a :: rest => min a (minList rest)

/-- getRemainingTime: zero below the cap, otherwise the time until the oldest
in-window entry leaves the window. The method only reads the map. -/
def RateLimiter.getRemainingTime (rl : RateLimiter) (key : String)
    (maxAttempts : Nat) (windowMs now : Int) : Int × RateLimiter :=
  let attempts := mapGet rl.attempts key
  let validAttempts := attempts.filter (fun time => now - time < windowMs)
  if validAttempts.length < maxAttempts then
    (0, rl)
  else
    (windowMs - (now - minList validAttempts), rl)

/-- reset: drop a key's history. -/
def RateLimiter.reset (rl : RateLimiter) (key : String) : RateLimiter :=
  ⟨mapDel rl.attempts key⟩

/-- Results of a sequence of isAllowed calls on one key at the given times. -/
def runSeq (rl : RateLimiter) (key : String) (maxAttempts : Nat) (windowMs : Int) :
    List Int → List Bool
  | [] => []
  | t :: ts =>
    let r := rl.isAllowed key maxAttempts windowMs t
    r.1 :: runSeq r.2 key maxAttempts windowMs ts

/-- The times of the calls that were allowed, from paired times and results. -/
def trueTimes : List Int → List Bool → List Int
  | t :: ts, b :: bs => if b then t :: trueTimes ts bs else trueTimes ts bs
  | _, _ => []

/-- An observable call against the limiter, for the frame property of
getRemainingTime. -/
inductive RLOp where
  | allowed (key : String) (maxAttempts : Nat) (windowMs now : Int)
  | remaining (key : String) (maxAttempts : Nat) (windowMs now : Int)
  | clear (key : String)
deriving DecidableEq

/-- An observed result of one limiter call. -/
inductive RLOut where
  | b (x : Bool)
  | t (x : Int)
  | unit
deriving DecidableEq

/-- Run a list of limiter calls, collecting the observed results. -/
def runOps (rl : RateLimiter) : List RLOp → List RLOut
  | [] => []
  | .allowed k ma w now :: ops =>
    let r := rl.isAllowed k ma w now
    .b r.1 :: runOps r.2 ops
  | .remaining k ma w now :: ops =>
    let r := rl.getRemainingTime k ma w now
    .t r.1 :: runOps r.2 ops
  | .clear k :: ops => .unit :: runOps (rl.reset k) ops

/-! ### Chat send throttling (src/components/MissionCommanderChat.tsx, sendMessage)

The component keeps lastMessageTime (initially 0) and uses the module-level
rateLimiter instance. Math.ceil of a positive millisecond remainder divided by
one thousand is the ceiling division below. -/

/-- Math.ceil (r / 1000) for an integer millisecond count. -/
def ceilSec (r : Int) : Int := -((-r) / 1000)

/-- Outcome of one sendMessage invocation: the frame that went out on the
socket, the inline error notice, and the updated throttling state. -/
structure SendResult where
  frame : Option String
  notice : Option String
  limiter : RateLimiter
  lastMessageTime : Int
deriving DecidableEq

/-- sendMessage from MissionCommanderChat: silently return when the socket is
not open; enforce the one-second cooldown; enforce the per-minute cap through
rateLimiter.isAllowed; validate and sanitize; then send the frame. -/
def chatSendMessage (wsOpen : Bool) (now lastMessageTime : Int) (rl : RateLimiter)
    (uid : Option String) (input : String) : SendResult :=
  if !wsOpen then ⟨none, none, rl, lastMessageTime⟩
  else if now - lastMessageTime < MESSAGE_COOLDOWN_MS then
    ⟨none,
     some ("Please wait " ++ toString (ceilSec (MESSAGE_COOLDOWN_MS - (now - lastMessageTime)))
       ++ " seconds before sending another message."),
     rl, lastMessageTime⟩
  else
    let userKey := "user_" ++ uid.getD "anonymous"
    let r := rl.isAllowed userKey MAX_MESSAGES_PER_MINUTE 60000 now
    if !r.1 then
      let rem := (r.2.getRemainingTime userKey MAX_MESSAGES_PER_MINUTE 60000 now).1
      ⟨none, some ("Too many messages. Please wait " ++ toString (ceilSec rem) ++ " seconds."),
       r.2, lastMessageTime⟩
    else
      let v := validateMessage input
      if !v.isValid then
        ⟨none, some (v.error.getD "Invalid message"), r.2, lastMessageTime⟩
      else
        ⟨some (sanitizeStr (trimStr input)), none, r.2, now⟩

/-- Run a sequence of sendMessage calls at the given times with a fixed open
socket, user and input, threading the limiter and lastMessageTime. -/
def runSends (rl : RateLimiter) (lastMessageTime : Int) (uid : Option String)
    (input : String) : List Int → List SendResult
  | [] => []
  | t :: ts =>
    let r := chatSendMessage true t lastMessageTime rl uid input
    r :: runSends r.limiter r.lastMessageTime uid input ts

/-! ### API client (src/utils/api.ts and the token-based variant)

A fetch call either rejects with an error message or resolves to a response
with an HTTP status whose body then parses as JSON or fails to. Only the
fields the client inspects are modelled on the body. -/

/-- The JSON fields of a response body that the two client variants read. -/
structure JsonBody where
  detail : Option String
  message : Option String
  error : Option String
  code : Option String
  error_code : Option String
deriving DecidableEq

/-- A parsed or unparseable response body; the unparseable case carries the
message of the exception response.json() rejects with. -/
inductive BodyParse where
  | good (b : JsonBody)
  | bad (msg : String)
deriving DecidableEq

/-- Outcome of the fetch call itself. -/
inductive FetchResult where
  | reject (msg : String)
  | resolve (status : Nat) (body : BodyParse)
deriving DecidableEq

/-- Response.ok: status in the 2xx range. -/
def statusOk (status : Nat) : Bool := 200 ≤ status && status < 300

/-- The ApiResponse shape both clients resolve to. -/
structure ApiResponse where
  data : Option JsonBody
  error : Option String
deriving DecidableEq

/-- Error message chosen by the status-code ladder of the cookie-session
client (src/utils/api.ts). -/
def cookieStatusMessage (status : Nat) : String :=
  if status == 401 then "Session expired. Please sign in again."
  else if status == 403 then "Access forbidden. Insufficient permissions."
  else if 500 ≤ status then "500: Internal Server Error - " ++ toString status
  else if 400 ≤ status then "400: Bad Request - " ++ toString status
  else "HTTP error! status: " ++ toString status

/-- Session-expiry markers the cookie client looks for in a parsed error
body: five exact detail strings or three substrings of message. -/
def cookieBodyMarker (b : JsonBody) : Bool :=
  b.detail == some "No session cookie found" ||
  b.detail == some "Session has expired" ||
  b.detail == some "Session has been revoked" ||
  b.detail == some "Invalid session cookie" ||
  b.detail == some "Invalid or expired session" ||
  optIncludes b.message "session" ||
  optIncludes b.message "expired" ||
  optIncludes b.message "invalid"

/-- Session-expiry markers the cookie client looks for in the catch block. -/
def cookieCatchMarker (msg : String) : Bool :=
  strIncludes msg "Session expired" ||
  strIncludes msg "No session cookie found" ||
  strIncludes msg "Session has been revoked" ||
  strIncludes msg "Invalid session cookie" ||
  strIncludes msg "Invalid or expired session" ||
  strIncludes msg "expired" ||
  strIncludes msg "session" ||
  strIncludes msg "Authentication failed"

/-- Appending of body details to the error message: errorMessage plus
a dash plus message-or-error, under JS truthiness. -/
def appendBodyDetails (errorMessage : String) (b : JsonBody) : String :=
  if truthyStr b.message then errorMessage ++ " - " ++ b.message.getD ""
  else if truthyStr b.error then errorMessage ++ " - " ++ b.error.getD ""
  else errorMessage

/-- makeRequest of the cookie-session ApiClient (src/utils/api.ts), given
whether an onSessionExpired callback is configured and the fetch outcome.
Returns the resolved ApiResponse and the number of times the callback was
invoked during the call: once in the 401 status branch, once more when the
parsed error body carries an expiry marker, and once more when the thrown
error message matches the catch-block markers. -/
def cookieMakeRequest (cb : Bool) (f : FetchResult) : ApiResponse × Nat :=
  match f with
  | .reject msg =>
    (⟨none, some msg⟩, if cb && cookieCatchMarker msg then 1 else 0)
  | .resolve status body =>
    if statusOk status then
      match body with
      | .good b => (⟨some b, none⟩, 0)
      | .bad msg =>
        (⟨none, some msg⟩, if cb && cookieCatchMarker msg then 1 else 0)
    else
      let m0 := cookieStatusMessage status
      let n1 := if status == 401 && cb then 1 else 0
      let m1 := match body with
        | .good b => appendBodyDetails m0 b
        | .bad _ => m0
      let n2 := match body with
        | .good b => if cookieBodyMarker b && cb then 1 else 0
        | .bad _ => 0
      let n3 := if cb && cookieCatchMarker m1 then 1 else 0
      (⟨none, some m1⟩, n1 + n2 + n3)

/-- JS String.prototype.split on a single separator character. -/
def splitOnChar (sep : Char) : List Char → List (List Char)
  | [] => [[]]
  | c :: rest =>
    let r := splitOnChar sep rest
    if c == sep then [] :: r
    else
      match r with
      | [] => [[c]]
      | h :: t => (c :: h) :: t

/-- Basic JWT shape check of the token client: three dot-separated
non-empty parts. -/
def isValidTokenFormat (token : String) : Bool :=
  let parts := splitOnChar '.' token.toList
  parts.length == 3 && parts.all (fun part => 0 < part.length)

/-- Error message chosen by the status-code ladder of the token client. -/
def tokenStatusMessage (status : Nat) : String :=
  if status == 401 then "Authentication failed. Please sign in again."
  else if status == 403 then "Access forbidden. Insufficient permissions."
  else if 500 ≤ status then "500: Internal Server Error - " ++ toString status
  else if 400 ≤ status then "400: Bad Request - " ++ toString status
  else "HTTP error! status: " ++ toString status

/-- Token-expiry markers the token client looks for in a parsed error body. -/
def tokenBodyMarker (b : JsonBody) : Bool :=
  b.code == some "auth/id-token-expired" ||
  optIncludes b.message "expired" ||
  optIncludes b.message "invalid token" ||
  b.error_code == some "TOKEN_EXPIRED" ||
  b.detail == some "Token expired"

/-- Token-expiry markers the token client looks for in the catch block. -/
def tokenCatchMarker (msg : String) : Bool :=
  strIncludes msg "Authentication failed" ||
  strIncludes msg "expired" ||
  strIncludes msg "invalid token" ||
  strIncludes msg "TOKEN_EXPIRED" ||
  strIncludes msg "Token expired"

/-- The part of the token client's makeRequest inside its try block, after a
token was obtained and validated. -/
def tokenTryBlock (cb : Bool) (f : FetchResult) : ApiResponse × Nat :=
  match f with
  | .reject msg =>
    (⟨none, some msg⟩, if cb && tokenCatchMarker msg then 1 else 0)
  | .resolve status body =>
    if statusOk status then
      match body with
      | .good b => (⟨some b, none⟩, 0)
      | .bad msg =>
        (⟨none, some msg⟩, if cb && tokenCatchMarker msg then 1 else 0)
    else
      let m0 := tokenStatusMessage status
      let n1 := if status == 401 && cb then 1 else 0
      let m1 := match body with
        | .good b => appendBodyDetails m0 b
        | .bad _ => m0
      let n2 := match body with
        | .good b => if tokenBodyMarker b && cb then 1 else 0
        | .bad _ => 0
      let n3 := if cb && tokenCatchMarker m1 then 1 else 0
      (⟨none, some m1⟩, n1 + n2 + n3)

/-- makeRequest of the token-based ApiClient variant. The null-token check
and the token format check sit before the try block, so those two paths throw
across the method's boundary (the Except.error case) instead of resolving. -/
def tokenMakeRequest (cb : Bool) (token : Option String) (f : FetchResult) :
    Except String (ApiResponse × Nat) :=
  match token with
  | none => .error "No authentication token available"
  | some t =>
    if !isValidTokenFormat t then .error "Invalid token format"
    else .ok (tokenTryBlock cb f)

/-! ### Auth/session state machine (src/unnamed/part_002, cookie-session
AuthProvider)

The provider keeps user, userProfile, isInitialLoad, sessionExpired and an
error page kind; showWarning appends to the warning log. The ApiClient is
constructed in an effect with an empty dependency list that runs once on
mount, so the handleSessionExpired closure it installs reads the
isInitialLoad value captured at mount, which is the initial state true, not
the current state. -/

/-- Error page kinds of the provider's error state. -/
inductive ErrKind where
  | e500
  | e400
deriving DecidableEq

/-- Observable state of the AuthProvider. -/
structure AuthState where
  userPresent : Bool
  userProfile : Option JsonBody
  isInitialLoad : Bool
  sessionExpired : Bool
  errorPage : Option ErrKind
  warnings : List String
  signedOut : Bool
deriving DecidableEq

/-- signOut: clear server session and Firebase auth, then clear the local
identity, profile, sessionExpired flag, and reset isInitialLoad. -/
def authSignOut (st : AuthState) : AuthState :=
  { st with userPresent := false, userProfile := none, sessionExpired := false,
            isInitialLoad := true, signedOut := true }

/-- The isInitialLoad value the session-expired callback reads: the client is
created once on mount (empty effect dependency list), so the closure holds
the mount-time value true of isInitialLoad for the provider's whole life. -/
def mountCapturedInitialLoad : Bool := true

/-- handleSessionExpired of the cookie-session AuthProvider, parameterized by
the isInitialLoad value its closure captured: silent sign-out when that value
is true, otherwise warn, clear the error page, mark the session expired and
sign out. -/
def handleSessionExpired (captured : Bool) (st : AuthState) : AuthState :=
  if captured then authSignOut st
  else
    authSignOut
      { st with
          warnings := st.warnings ++ ["Your session has expired. Please sign in again."],
          errorPage := none,
          sessionExpired := true }

/-- Iterated application of the mount-captured session-expired callback, once
per invocation the API client performs during a request. -/
def applyCallbackN : Nat → AuthState → AuthState
  | 0, st => st
  | n + 1, st => applyCallbackN n (handleSessionExpired mountCapturedInitialLoad st)

/-- The session-expiry substrings fetchUserProfile looks for in a failed
profile response's error string. -/
def profileErrMarker (e : Option String) : Bool :=
  optIncludes e "No session cookie found" ||
  optIncludes e "Session has expired" ||
  optIncludes e "Session has been revoked" ||
  optIncludes e "Invalid session cookie" ||
  optIncludes e "Invalid or expired session" ||
  optIncludes e "session" ||
  optIncludes e "expired" ||
  optIncludes e "Authentication failed"

/-- fetchUserProfile of the cookie-session AuthProvider for one fetch
outcome: clearError, perform getUserProfile through the cookie client (whose
session-expired callback fires during the request with the mount-captured
flag), then classify the response. The isInitialLoad the function branches on
is the value its own closure captured at entry, not the value the callback
may have reset meanwhile. -/
def fetchUserProfile (st : AuthState) (f : FetchResult) : AuthState :=
  let closureInitialLoad := st.isInitialLoad
  let st := { st with errorPage := none }
  let r := cookieMakeRequest true f
  let resp := r.1
  let st := applyCallbackN r.2 st
  match resp.data with
  | some b => { st with userProfile := some b, isInitialLoad := false }
  | none =>
    if profileErrMarker resp.error then
      if closureInitialLoad then authSignOut st else st
    else if optIncludes resp.error "500" || optIncludes resp.error "Internal Server Error" then
      { st with errorPage := some .e500 }
    else
      { st with errorPage := some .e400 }

/-! ### WebSocket session manager (src/hooks/useMissionAllyWebSocket.ts)

The hook is modelled as a state machine. Sockets are stored in creation
order and identified by their index; wsRef holds the index of the socket the
wsRef ref points to. Scheduled reconnect timers are kept as the list of the
mission ids their connect closures captured, in scheduling order, together
with the log of every setTimeout delay ever requested. Flash errors are a
log of showError calls. -/

/-- readyState of a browser WebSocket. -/
inductive SockSt where
  | connecting
  | opened
  | closing
  | closed
deriving DecidableEq

/-- One created WebSocket: the mission id in its URL and its readyState. -/
structure Socket where
  mid : String
  st : SockSt
deriving DecidableEq

/-- A socket that is connecting or open. -/
def Socket.live (so : Socket) : Bool := so.st == SockSt.connecting || so.st == SockSt.opened

/-- MAX_RECONNECT_ATTEMPTS. -/
def MAX_RECONNECT_ATTEMPTS : Nat := 3

/-- RECONNECT_DELAY in milliseconds. -/
def RECONNECT_DELAY : Nat := 3000

/-- State of one useMissionAllyWebSocket instance. -/
structure HookState where
  sockets : List Socket
  wsRef : Option Nat
  currentMissionId : Option String
  isConnecting : Bool
  hasConnected : Bool
  reconnectAttempts : Nat
  pendingTimers : List String
  scheduledDelays : List Nat
  pingActive : Bool
  isConnected : Bool
  isTyping : Bool
  flash : List String
deriving DecidableEq

/-- The initial state of the hook. -/
def initHook : HookState :=
  ⟨[], none, none, false, false, 0, [], [], false, false, false, []⟩

/-- readyState of the socket wsRef currently points to. -/
def refState (s : HookState) : Option SockSt :=
  match s.wsRef with
  | none => none
  | some i =>
    match s.sockets.get? i with
    | some so => some so.st
    | none => none

/-- WebSocket.close() called on a socket: a connecting or open socket starts
its closing handshake; an already closing or closed socket is unaffected. -/
def closeSockSt : SockSt → SockSt
  | .connecting => .closing
  | .opened => .closing
  | s => s

/-- Apply close() to the socket at index i. -/
def closeSockAt (l : List Socket) (i : Nat) : List Socket :=
  match l.get? i with
  | some so => l.set i { so with st := closeSockSt so.st }
  | none => l

/-- Mark the socket at index i as having a given readyState. -/
def setSockAt (l : List Socket) (i : Nat) (st : SockSt) : List Socket :=
  match l.get? i with
  | some so => l.set i { so with st := st }
  | none => l

/-- Environment of one connect() invocation: whether auth.currentUser exists
and whether the awaited getIdToken call succeeds. -/
inductive ConnectEnv where
  | noUser
  | tokenFail
  | ok
deriving DecidableEq

/-- connect() of the hook for mission id mid. Guard one: same mission and the
wsRef socket open, or the isConnecting flag set. Guard two: same mission,
hasConnected set and the wsRef socket still connecting. Otherwise a changed
mission id closes the existing socket; then the connecting flag is set and,
when a user and token are available, a new socket is created and installed in
wsRef. When no user exists a flash error is shown (the connecting flag stays
set, as in the source); a token failure clears the flag and shows a flash
error. -/
def connect (s : HookState) (mid : String) (env : ConnectEnv) : HookState :=
  if s.currentMissionId == some mid &&
     (refState s == some SockSt.opened || s.isConnecting) then s
  else if s.currentMissionId == some mid && s.hasConnected &&
          refState s == some SockSt.connecting then s
  else
    let s :=
      if !(s.currentMissionId == none) && !(s.currentMissionId == some mid) then
        { s with
            sockets := match s.wsRef with
              | some i => closeSockAt s.sockets i
              | none => s.sockets,
            wsRef := none, hasConnected := false, isConnecting := false }
      else s
    let s := { s with currentMissionId := some mid, isConnecting := true }
    match env with
    | .noUser =>
      { s with flash := s.flash ++ ["Please sign in to connect to Mission Ally"] }
    | .tokenFail =>
      { s with isConnecting := false,
               flash := s.flash ++ ["Failed to authenticate. Please refresh the page."] }
    | .ok =>
      { s with sockets := s.sockets ++ [⟨mid, .connecting⟩],
               wsRef := some s.sockets.length }

/-- The ws.onopen handler: mark connected, clear the connecting flag, record
a successful connection, reset the reconnect counter and start the ping
interval. -/
def handleOpen (s : HookState) : HookState :=
  { s with isConnected := true, isConnecting := false, hasConnected := true,
           reconnectAttempts := 0, pingActive := true }

/-- The ws.onclose handler body for a close event with the given code and
the mission id the handler's connect closure captured: clear the connected
and typing flags and the ping interval; when the code is not the normal
closure code and attempts remain, count the attempt, treat the auth-rejected
code 1008 as terminal with a flash error, and otherwise schedule a reconnect
after RECONNECT_DELAY; when attempts are exhausted show the connection-lost
flash error. -/
def handleClose (s : HookState) (code : Nat) (closureMid : String) : HookState :=
  let s := { s with isConnected := false, isTyping := false, isConnecting := false,
                    pingActive := false }
  if code != 1000 && s.reconnectAttempts < MAX_RECONNECT_ATTEMPTS then
    let s := { s with reconnectAttempts := s.reconnectAttempts + 1 }
    if code == 1008 then
      { s with flash := s.flash ++ ["Authentication failed. Please refresh the page."] }
    else
      { s with pendingTimers := s.pendingTimers ++ [closureMid],
               scheduledDelays := s.scheduledDelays ++ [RECONNECT_DELAY] }
  else if MAX_RECONNECT_ATTEMPTS ≤ s.reconnectAttempts then
    { s with flash := s.flash ++ ["Connection lost. Please refresh the page to reconnect."] }
  else s

/-- The ws.onerror handler: the socket is failing (its close event follows
separately); the handler clears the connected and connecting flags. -/
def handleError (s : HookState) (i : Nat) : HookState :=
  { s with sockets := closeSockAt s.sockets i, isConnected := false, isConnecting := false }

/-- Events driving one hook instance: connect calls with their environment,
socket open, close and error events (carrying the socket index, and for close
the close code and the mission id its handler closure captured), a reconnect
timer firing, the user-invoked reconnect, and the effect cleanup captured
over oldMid. -/
inductive WSEvent where
  | connectCall (mid : String) (env : ConnectEnv)
  | openEv (i : Nat)
  | closeEv (i : Nat) (code : Nat) (closureMid : String)
  | errorEv (i : Nat)
  | timerFire (env : ConnectEnv)
  | reconnectCall (mid : String) (env : ConnectEnv)
  | cleanupEv (oldMid : String)
deriving DecidableEq

/-- One transition of the hook state machine. Open, close and error events
only apply to a socket the network can still act on (a close event needs a
socket not yet closed; an open event needs a connecting socket). A timer can
only fire while it is pending and runs the scheduled connect when the
attempt counter is within the ceiling, showing the retry-exhausted flash
error otherwise. The cleanup only tears down when the current mission id
differs from the one its closure captured, cancelling the most recently
scheduled timer. -/
def stepWS (s : HookState) : WSEvent → HookState
  | .connectCall mid env => connect s mid env
  | .openEv i =>
    match s.sockets.get? i with
    | some so =>
      if so.st == SockSt.connecting then
        handleOpen { s with sockets := setSockAt s.sockets i .opened }
      else s
    | none => s
  | .closeEv i code closureMid =>
    match s.sockets.get? i with
    | some so =>
      if !(so.st == SockSt.closed) then
        handleClose { s with sockets := setSockAt s.sockets i .closed } code closureMid
      else s
    | none => s
  | .errorEv i =>
    match s.sockets.get? i with
    | some so => if so.live then handleError s i else s
    | none => s
  | .timerFire env =>
    match s.pendingTimers with
    | [] => s
    | closureMid :: rest =>
      let s := { s with pendingTimers := rest }
      if s.reconnectAttempts ≤ MAX_RECONNECT_ATTEMPTS then connect s closureMid env
      else
        { s with
            flash := s.flash ++ ["Failed to connect after multiple attempts. Please refresh the page."] }
  | .reconnectCall mid env =>
    let s := { s with reconnectAttempts := 0 }
    let s := match s.wsRef with
      | some i => { s with sockets := closeSockAt s.sockets i }
      | none => s
    connect s mid env
  | .cleanupEv oldMid =>
    if !(s.currentMissionId == some oldMid) then
      let s := { s with hasConnected := false, isConnecting := false,
                        pendingTimers := s.pendingTimers.dropLast,
                        pingActive := false }
      match s.wsRef with
      | some i => { s with sockets := closeSockAt s.sockets i, wsRef := none }
      | none => s
    else s

/-- Run the hook state machine over a list of events. -/
def runWS (s : HookState) : List WSEvent → HookState
  | [] => s
  | e :: es => runWS (stepWS s e) es

/-- Number of live sockets whose URL carries the given mission id. -/
def liveCount (s : HookState) (mid : String) : Nat :=
  (s.sockets.filter (fun so => so.live && so.mid == mid)).length

/-! ### Single-key view of the rate limiter

Since the attempts map binds keys independently, a sequence of isAllowed
calls on one key is determined by that key's stored timestamp list. The
following bridge mirrors the body of isAllowed on the stored list alone and
is proved equal to runSeq below. -/

/-- One isAllowed call, acting on the stored list of a single key. -/
def stepL (ma : Nat) (w : Int) (l : List Int) (t : Int) : Bool × List Int :=
  let validAttempts := l.filter (fun time => t - time < w)
  if ma ≤ validAttempts.length then (false, l) else (true, validAttempts ++ [t])

/-- Results of a call sequence on a single key's stored list. -/
def runL (ma : Nat) (w : Int) (l : List Int) : List Int → List Bool
  | [] => []
  | t :: ts => (stepL ma w l t).1 :: runL ma w (stepL ma w l t).2 ts

/-- Stored list of the key after a call sequence. -/
def finalL (ma : Nat) (w : Int) (l : List Int) : List Int → List Int
  | [] => l
  | t :: ts => finalL ma w (stepL ma w l t).2 ts

/-! ## Theorems

Helper lemmas come first, then one theorem per claim (with its witness or
counterexample where required). -/

/-! ### String search lemmas -/

theorem isInfixB_nil_left (l : List Char) : isInfixB [] l = true := by
  cases l <;> simp [isInfixB, isPrefixB]

theorem isPrefixB_append (p a b : List Char) (h : isPrefixB p a = true) :
    isPrefixB p (a ++ b) = true := by
  induction p generalizing a with
  | nil => simp [isPrefixB]
  | cons x p ih =>
    cases a with
    | nil => simp [isPrefixB] at h
    | cons y a' =>
      simp only [isPrefixB, Bool.and_eq_true] at h
      simp only [List.cons_append, isPrefixB, Bool.and_eq_true]
      exact ⟨h.1, ih a' h.2⟩

theorem isInfixB_append (p a b : List Char) (h : isInfixB p a = true) :
    isInfixB p (a ++ b) = true := by
  induction a with
  | nil =>
    simp only [isInfixB, List.isEmpty_iff] at h
    subst h
    simpa using isInfixB_nil_left b
  | cons c a' ih =>
    simp only [isInfixB, Bool.or_eq_true] at h
    rcases h with h | h
    · simp only [List.cons_append, isInfixB, Bool.or_eq_true]
      exact Or.inl (isPrefixB_append p (c :: a') b h)
    · simp only [List.cons_append, isInfixB, Bool.or_eq_true]
      exact Or.inr (ih h)

theorem toList_append (a b : String) : (a ++ b).toList = a.toList ++ b.toList := rfl

theorem strIncludes_append (a b pat : String) (h : strIncludes a pat = true) :
    strIncludes (a ++ b) pat = true := by
  unfold strIncludes at h ⊢
  rw [toList_append]
  exact isInfixB_append _ _ _ h

/-! ### Sanitizer lemmas -/

theorem mem_purifyGo (l : List Char) :
    ∀ (b : Bool), ∀ a ∈ purifyGo b l, a ∈ l ∨ a ∈ ['&', 'l', 't', ';'] := by
  induction l with
  | nil => intro b a ha; simp [purifyGo] at ha
  | cons c rest ih =>
    intro b a ha
    cases b with
    | true =>
      rw [purifyGo] at ha
      split at ha <;>
        rcases ih _ a ha with h | h <;>
          first
            | exact Or.inl (List.mem_cons_of_mem _ h)
            | exact Or.inr h
    | false =>
      rw [purifyGo] at ha
      split at ha
      · split at ha
        · rcases ih _ a ha with h | h
          · exact Or.inl (List.mem_cons_of_mem _ h)
          · exact Or.inr h
        · simp only [List.mem_cons] at ha
          rcases ha with h | h | h | h | h
          · exact Or.inr (by simp [h])
          · exact Or.inr (by simp [h])
          · exact Or.inr (by simp [h])
          · exact Or.inr (by simp [h])
          · rcases ih _ a h with h' | h'
            · exact Or.inl (List.mem_cons_of_mem _ h')
            · exact Or.inr h'
      · simp only [List.mem_cons] at ha
        rcases ha with h | h
        · exact Or.inl (by simp [h])
        · rcases ih _ a h with h' | h'
          · exact Or.inl (List.mem_cons_of_mem _ h')
          · exact Or.inr h'

theorem mem_purifyChars (l : List Char) :
    ∀ a ∈ purifyChars l, a ∈ l ∨ a ∈ ['&', 'l', 't', ';'] :=
  mem_purifyGo l false

theorem lt_not_mem_purifyGo (l : List Char) : ∀ b : Bool, '<' ∉ purifyGo b l := by
  induction l with
  | nil => intro b; simp [purifyGo]
  | cons c rest ih =>
    intro b
    cases b with
    | true =>
      rw [purifyGo]
      split
      · exact ih false
      · exact ih true
    | false =>
      rw [purifyGo]
      split
      · split
        · exact ih true
        · intro h
          simp only [List.mem_cons] at h
          rcases h with h | h | h | h | h
          · exact absurd h (by decide)
          · exact absurd h (by decide)
          · exact absurd h (by decide)
          · exact absurd h (by decide)
          · exact ih false h
      · rename_i hc
        intro h
        simp only [List.mem_cons] at h
        rcases h with h | h
        · exact hc (by rw [← h]; simp)
        · exact ih false h

theorem lt_not_mem_purifyChars (l : List Char) : '<' ∉ purifyChars l :=
  lt_not_mem_purifyGo l false

theorem purifyChars_eq_self (l : List Char) (h : '<' ∉ l) : purifyChars l = l := by
  unfold purifyChars
  induction l with
  | nil => simp [purifyGo]
  | cons c rest ih =>
    have hc : ¬(c == '<') = true := by
      intro e
      exact h (by simp_all)
    rw [purifyGo, if_neg hc, ih (fun hm => h (List.mem_cons_of_mem _ hm))]

theorem mem_dropWhileChar (p : Char → Bool) (l : List Char) (a : Char)
    (h : a ∈ l.dropWhile p) : a ∈ l := by
  induction l with
  | nil => simp [List.dropWhile] at h
  | cons c rest ih =>
    rw [List.dropWhile] at h
    split at h
    · exact List.mem_cons_of_mem _ (ih h)
    · exact h

theorem mem_dropTrailing (p : Char → Bool) (l : List Char) (a : Char)
    (h : a ∈ dropTrailing p l) : a ∈ l := by
  unfold dropTrailing at h
  rw [List.mem_reverse] at h
  have := mem_dropWhileChar p l.reverse a h
  rwa [List.mem_reverse] at this

theorem mem_trimChars (l : List Char) (a : Char) (h : a ∈ trimChars l) : a ∈ l :=
  mem_dropWhileChar _ _ _ (mem_dropTrailing _ _ _ h)

theorem mem_stripControl (l : List Char) (a : Char) (h : a ∈ stripControl l) :
    isControlChar a = false := by
  unfold stripControl at h
  have := (List.mem_filter.mp h).2
  simpa using this

theorem mem_stripControl_mem (l : List Char) (a : Char) (h : a ∈ stripControl l) :
    a ∈ l := (List.mem_filter.mp h).1

theorem stripControl_eq_self (l : List Char) (h : ∀ a ∈ l, isControlChar a = false) :
    stripControl l = l := by
  unfold stripControl
  rw [List.filter_eq_self]
  intro a ha
  simp [h a ha]

theorem sanitizeStr_toList (s : String) :
    (sanitizeStr s).toList = purifyChars (trimChars (stripControl s.toList)) := rfl

theorem sanitizeStr_no_control (s : String) :
    ∀ c ∈ (sanitizeStr s).toList, isControlChar c = false := by
  intro c hc
  rw [sanitizeStr_toList] at hc
  rcases mem_purifyChars _ c hc with h | h
  · exact mem_stripControl _ _ (mem_trimChars _ _ h)
  · simp only [List.mem_cons] at h
    rcases h with h | h | h | h | h <;> first
      | (subst h; decide)
      | simp at h

theorem sanitizeStr_no_lt (s : String) : '<' ∉ (sanitizeStr s).toList := by
  rw [sanitizeStr_toList]
  exact lt_not_mem_purifyChars _

theorem sanitizeStr_idem_trim (s : String) :
    sanitizeStr (sanitizeStr s) = trimStr (sanitizeStr s) := by
  show String.mk (purifyChars (trimChars (stripControl (sanitizeStr s).toList)))
     = String.mk (trimChars (sanitizeStr s).toList)
  rw [stripControl_eq_self _ (sanitizeStr_no_control s)]
  rw [purifyChars_eq_self]
  intro hmem
  exact sanitizeStr_no_lt s (mem_trimChars _ _ hmem)

/-! ### Claim C8: identifier validation -/

/-- C8 (amended): validateSessionId rejects whenever the sanitized value —
not the raw input — is empty, exceeds SESSION_ID_MAX_LENGTH, or contains a
character outside the allowed class. Characters that sanitization removes
(control characters, leading and trailing whitespace) do not cause
rejection, as the counterexample shows. -/
theorem c8_session_id_validation (s : String)
    (h : sanitizeStr s = "" ∨ SESSION_ID_MAX_LENGTH < (sanitizeStr s).length ∨
         ∃ c ∈ (sanitizeStr s).toList, isSessionIdChar c = false) :
    (validateSessionId s).isValid = false := by
  unfold validateSessionId
  by_cases h0 : (s == "") = true
  · rw [if_pos h0]
  · rw [if_neg h0]
    rcases h with h1 | h2 | ⟨c, hc, hbad⟩
    · have h1' : ((sanitizeStr s).length == 0) = true := by rw [h1]; rfl
      rw [if_pos h1']
    · have hne : ¬(((sanitizeStr s).length == 0) = true) := by
        simp only [beq_iff_eq]
        unfold SESSION_ID_MAX_LENGTH at h2
        omega
      rw [if_neg hne, if_pos h2]
    · by_cases hlen : SESSION_ID_MAX_LENGTH < (sanitizeStr s).length
      · have hne : ¬(((sanitizeStr s).length == 0) = true) := by
          simp only [beq_iff_eq]
          unfold SESSION_ID_MAX_LENGTH at hlen
          omega
        rw [if_neg hne, if_pos hlen]
      · have hne : ¬(((sanitizeStr s).length == 0) = true) := by
          simp only [beq_iff_eq]
          have h1 : (sanitizeStr s).toList ≠ [] := List.ne_nil_of_mem hc
          have h2 : 0 < (sanitizeStr s).toList.length := List.length_pos.mpr h1
          have he : (sanitizeStr s).length = (sanitizeStr s).toList.length := rfl
          omega
        have hall : (!(sanitizeStr s).toList.all isSessionIdChar) = true := by
          simp only [Bool.not_eq_eq_eq_not, Bool.not_true, List.all_eq_false]
          exact ⟨c, hc, by simp [hbad]⟩
        rw [if_neg hne, if_neg hlen, if_pos hall]

/-- C8 witness: an input whose sanitized form keeps a disallowed character
is rejected. -/
theorem c8_witness :
    (sanitizeStr "a!" = "" ∨ SESSION_ID_MAX_LENGTH < (sanitizeStr "a!").length ∨
      ∃ c ∈ (sanitizeStr "a!").toList, isSessionIdChar c = false) ∧
    (validateSessionId "a!").isValid = false :=
  ⟨Or.inr (Or.inr ⟨'!', by decide, by decide⟩),
   c8_session_id_validation "a!" (Or.inr (Or.inr ⟨'!', by decide, by decide⟩))⟩

/-- C8 counterexample: the raw input contains a character outside the
allowed class (a newline), yet validateSessionId accepts it, because
sanitization strips the control character before the class check. -/
theorem c8_counterexample :
    ('\n' ∈ "ab\n".toList ∧ isSessionIdChar '\n' = false) ∧
    (validateSessionId "ab\n").isValid = true := by decide

/-! ### Claim C9: sanitizer properties -/

/-- C9 (amended): sanitizeInput is idempotent up to trimming — applying it
twice equals trimming its single application (tag removal can expose
leading or trailing whitespace, which only the second pass trims); its
output contains no control characters and no less-than sign (hence no
active HTML); non-string input yields the empty string. -/
theorem c9_sanitize :
    (∀ s : String,
       sanitizeInput (.str (sanitizeInput (.str s))) = trimStr (sanitizeInput (.str s))) ∧
    (∀ s : String, ∀ c ∈ (sanitizeInput (.str s)).toList,
       isControlChar c = false ∧ c ≠ '<') ∧
    sanitizeInput .nonString = "" := by
  refine ⟨?_, ?_, rfl⟩
  · intro s
    exact sanitizeStr_idem_trim s
  · intro s c hc
    refine ⟨sanitizeStr_no_control s c hc, ?_⟩
    intro e
    subst e
    exact sanitizeStr_no_lt s hc

/-- C9 witness: the theorem applied at a concrete input. -/
theorem c9_witness :
    sanitizeInput (.str (sanitizeInput (.str "a<b>c"))) = trimStr (sanitizeInput (.str "a<b>c")) ∧
    (isControlChar 'a' = false ∧ 'a' ≠ '<') :=
  ⟨c9_sanitize.1 "a<b>c", c9_sanitize.2.1 "a<b>c" 'a' (by decide)⟩

/-- C9 counterexample: sanitizeInput is not idempotent as claimed — removing
the bold tags exposes the inner spaces, which only a second application
trims away. -/
theorem c9_counterexample :
    sanitizeInput (.str (sanitizeInput (.str "<b> a </b>"))) ≠
      sanitizeInput (.str "<b> a </b>") := by decide

/-! ### Claim C10: getRemainingTime is read-only -/

/-- C10: getRemainingTime leaves the limiter state unchanged, so any
subsequent sequence of limiter calls observes exactly the results it would
have observed had the getRemainingTime call never happened. -/
theorem c10_remaining_time_frame :
    ∀ (rl : RateLimiter) (key : String) (maxAttempts : Nat) (windowMs now : Int)
      (ops : List RLOp),
      (rl.getRemainingTime key maxAttempts windowMs now).2 = rl ∧
      runOps (rl.getRemainingTime key maxAttempts windowMs now).2 ops = runOps rl ops := by
  intro rl key ma w now ops
  have h : (rl.getRemainingTime key ma w now).2 = rl := by
    unfold RateLimiter.getRemainingTime
    dsimp only
    split <;> rfl
  exact ⟨h, by rw [h]⟩

/-! ### Claim C7: chat send throttling -/

set_option maxRecDepth 100000 in
/-- C7 (amended): with the per-minute cap of MAX_MESSAGES_PER_MINUTE = 30,
thirty sends spaced one second apart from the same user key all go out, and
the thirty-first send within the same sixty-second window is rejected
locally with the too-many-messages notice and emits no frame. -/
theorem c7_chat_throttle :
    ((runSends RateLimiter.new 0 (some "u1") "hi"
        ((List.range 31).map (fun i => 1000 * ((i : Int) + 1)))).take 30).all
        (fun r => r.frame.isSome && (r.notice == none)) = true ∧
    ((runSends RateLimiter.new 0 (some "u1") "hi"
        ((List.range 31).map (fun i => 1000 * ((i : Int) + 1)))).getLast?).map
        (fun r => (r.frame, r.notice)) =
      some (none, some "Too many messages. Please wait 30 seconds.") := by decide

set_option maxRecDepth 100000 in
/-- C7 counterexample: the eleventh send within sixty seconds is not
rejected — its frame goes out with no notice, refuting the claimed cap of
ten. -/
theorem c7_counterexample :
    ((runSends RateLimiter.new 0 (some "u1") "hi"
        ((List.range 11).map (fun i => 1000 * ((i : Int) + 1)))).getLast?).map
        (fun r => (r.frame, r.notice)) = some (some "hi", none) := by decide

/-! ### Claim C1: session-expired callback count on a 401 -/

theorem cookieCatchMarker_appendBodyDetails (b : JsonBody) :
    cookieCatchMarker (appendBodyDetails (cookieStatusMessage 401) b) = true := by
  have base : strIncludes (cookieStatusMessage 401) "Session expired" = true := by decide
  have happ : ∀ t : String,
      strIncludes (cookieStatusMessage 401 ++ " - " ++ t) "Session expired" = true := by
    intro t
    exact strIncludes_append _ _ _ (strIncludes_append _ _ _ base)
  unfold appendBodyDetails cookieCatchMarker
  split
  · simp [happ]
  · split
    · simp [happ]
    · simp [base]

/-- C1 (amended): for a 401 response with the callback configured, the
session-expired callback is invoked exactly twice per failing call when the
response body carries no expiry marker — once in the status-code branch and
once in the catch block, whose marker list always matches the 401 error
message — and exactly three times when the parsed body does carry a marker.
It is never invoked exactly once. -/
theorem c1_session_expired_callback_count :
    ∀ bp : BodyParse,
      (cookieMakeRequest true (.resolve 401 bp)).2 =
        (match bp with
         | .good b => if cookieBodyMarker b then 3 else 2
         | .bad _ => 2) := by
  intro bp
  have hok : ¬(statusOk 401 = true) := by decide
  cases bp with
  | bad msg =>
    show (cookieMakeRequest true (.resolve 401 (.bad msg))).2 = 2
    unfold cookieMakeRequest
    dsimp only
    rw [if_neg hok]
    decide
  | good b =>
    show (cookieMakeRequest true (.resolve 401 (.good b))).2 =
      if cookieBodyMarker b then 3 else 2
    unfold cookieMakeRequest
    dsimp only
    rw [if_neg hok]
    have h3 : cookieCatchMarker (appendBodyDetails (cookieStatusMessage 401) b) = true :=
      cookieCatchMarker_appendBodyDetails b
    dsimp only
    rw [h3]
    by_cases hm : cookieBodyMarker b = true
    · simp [hm]
    · simp [hm]

/-- C1 counterexample: a plain 401 whose body fails to parse already fires
the callback twice in one call, refuting exactly-once. -/
theorem c1_counterexample :
    (cookieMakeRequest true (.resolve 401 (.bad "SyntaxError: Unexpected token"))).2 = 2 ∧
    (cookieMakeRequest true (.resolve 401 (.bad "SyntaxError: Unexpected token"))).2 ≠ 1 := by
  decide

/-! ### Claim C2: every failure path resolves to a Result -/

theorem tokenTryBlock_total (cb : Bool) (f : FetchResult) :
    ((tokenTryBlock cb f).1.data.isSome || (tokenTryBlock cb f).1.error.isSome) = true := by
  cases f with
  | reject msg => rfl
  | resolve status body =>
    unfold tokenTryBlock
    dsimp only
    by_cases hok : statusOk status = true
    · rw [if_pos hok]
      cases body <;> rfl
    · rw [if_neg hok]
      rfl

/-- C2 (amended): the cookie-session client resolves every fetch outcome —
transport rejection, any HTTP status, parse failure — to an ApiResponse
carrying data or an error string; the token-based client does the same for
every outcome once a well-formed token was obtained, but a missing or
malformed token makes its makeRequest throw before the try block, as the
counterexample shows. -/
theorem c2_resolves_result :
    (∀ (cb : Bool) (f : FetchResult),
        ((cookieMakeRequest cb f).1.data.isSome ||
         (cookieMakeRequest cb f).1.error.isSome) = true) ∧
    (∀ (cb : Bool) (t : String) (f : FetchResult), isValidTokenFormat t = true →
        ∃ r : ApiResponse × Nat, tokenMakeRequest cb (some t) f = .ok r ∧
          (r.1.data.isSome || r.1.error.isSome) = true) := by
  constructor
  · intro cb f
    cases f with
    | reject msg => rfl
    | resolve status body =>
      unfold cookieMakeRequest
      dsimp only
      by_cases hok : statusOk status = true
      · rw [if_pos hok]
        cases body <;> rfl
      · rw [if_neg hok]
        rfl
  · intro cb t f hv
    refine ⟨tokenTryBlock cb f, ?_, tokenTryBlock_total cb f⟩
    unfold tokenMakeRequest
    dsimp only
    rw [if_neg]
    simp [hv]

/-- C2 witness: a well-formed token with a transport failure still resolves
to an error-carrying ApiResponse. -/
theorem c2_witness :
    isValidTokenFormat "a.b.c" = true ∧
    ∃ r : ApiResponse × Nat,
      tokenMakeRequest true (some "a.b.c") (.reject "NetworkError when attempting to fetch resource") = .ok r ∧
      (r.1.data.isSome || r.1.error.isSome) = true :=
  ⟨by decide,
   c2_resolves_result.2 true "a.b.c"
     (.reject "NetworkError when attempting to fetch resource") (by decide)⟩

/-- C2 counterexample: a credential supplier yielding no token makes the
token client's makeRequest throw across its boundary instead of resolving
to an ApiResponse. -/
theorem c2_counterexample :
    tokenMakeRequest true none (.resolve 200 (.good ⟨none, none, none, none, none⟩)) =
      .error "No authentication token available" := rfl

/-! ### Claim C3: silent versus visible handling of an expired session -/

/-- C3: evaluation of the profile-fetch flow at a 401. During initial load
the user is signed out silently with no error page and no warning, as the
claim says. After initial load the observable outcome is identical — still
no warning — because the session-expired callback closed over the
mount-time isInitialLoad value true (the client is created in a run-once
effect), so its warning branch never executes, contradicting the claim and
the code's own comment for that branch. -/
theorem c3_auth_expired_timing :
    (let first := fetchUserProfile ⟨true, none, true, false, none, [], false⟩
        (.resolve 401 (.bad "SyntaxError: Unexpected token"))
     first.signedOut = true ∧ first.warnings = [] ∧ first.errorPage = none ∧
       first.userPresent = false) ∧
    (let post := fetchUserProfile ⟨true, none, false, false, none, [], false⟩
        (.resolve 401 (.bad "SyntaxError: Unexpected token"))
     post.signedOut = true ∧ post.warnings = [] ∧ post.errorPage = none ∧
       post.userPresent = false) := by decide

/-! ### List index helpers for the socket store -/

theorem get?_set_self {α : Type} (l : List α) (i : Nat) (a : α) (h : i < l.length) :
    (l.set i a).get? i = some a := by
  induction l generalizing i with
  | nil => simp at h
  | cons x xs ih =>
    cases i with
    | zero => rfl
    | succ n =>
      simp only [List.set, List.get?]
      exact ih n (by simpa using h)

theorem get?_append_of_lt {α : Type} (l l2 : List α) (i : Nat) (h : i < l.length) :
    (l ++ l2).get? i = l.get? i := by
  induction l generalizing i with
  | nil => simp at h
  | cons x xs ih =>
    cases i with
    | zero => rfl
    | succ n => exact ih n (by simpa using h)

theorem length_closeSockAt (l : List Socket) (i : Nat) :
    (closeSockAt l i).length = l.length := by
  unfold closeSockAt
  split
  · exact List.length_set l i _
  · rfl

theorem get?_closeSockAt_self (l : List Socket) (i : Nat) (so : Socket)
    (h : l.get? i = some so) :
    (closeSockAt l i).get? i = some { so with st := closeSockSt so.st } := by
  have hlen : i < l.length := by
    by_contra hge
    rw [List.get?_eq_none.mpr (by omega)] at h
    exact Option.noConfusion h
  unfold closeSockAt
  rw [h]
  exact get?_set_self l i _ hlen

/-! ### Claim C4: close-event policy of the WebSocket manager -/

/-- C4 (amended): a close with the normal-closure code 1000 never schedules
a reconnect; a close with the auth-rejected code 1008 never schedules a
reconnect and reports the fatal authentication message whenever the attempt
counter is still below the ceiling — but once the ceiling of 3 is reached, a
1008 close reports the generic connection-lost message instead, as the
counterexample shows; any other close code below the ceiling schedules
exactly one reconnect after the fixed 3000 millisecond delay and counts the
attempt, the counter never exceeding 3; at the ceiling, any non-normal close
schedules nothing and reports the distinct connection-lost message. -/
theorem c4_close_policy :
    (∀ (s : HookState) (mid : String),
        (handleClose s 1000 mid).scheduledDelays = s.scheduledDelays) ∧
    (∀ (s : HookState) (mid : String),
        (handleClose s 1008 mid).scheduledDelays = s.scheduledDelays) ∧
    (∀ (s : HookState) (mid : String), s.reconnectAttempts < MAX_RECONNECT_ATTEMPTS →
        (handleClose s 1008 mid).flash =
          s.flash ++ ["Authentication failed. Please refresh the page."]) ∧
    (∀ (s : HookState) (mid : String) (code : Nat),
        code ≠ 1000 → code ≠ 1008 → s.reconnectAttempts < MAX_RECONNECT_ATTEMPTS →
        (handleClose s code mid).scheduledDelays = s.scheduledDelays ++ [RECONNECT_DELAY] ∧
        (handleClose s code mid).pendingTimers = s.pendingTimers ++ [mid] ∧
        (handleClose s code mid).reconnectAttempts = s.reconnectAttempts + 1) ∧
    (∀ (s : HookState) (mid : String) (code : Nat),
        code ≠ 1000 → MAX_RECONNECT_ATTEMPTS ≤ s.reconnectAttempts →
        (handleClose s code mid).scheduledDelays = s.scheduledDelays ∧
        (handleClose s code mid).flash =
          s.flash ++ ["Connection lost. Please refresh the page to reconnect."]) ∧
    (∀ (s : HookState) (mid : String) (code : Nat),
        s.reconnectAttempts ≤ MAX_RECONNECT_ATTEMPTS →
        (handleClose s code mid).reconnectAttempts ≤ MAX_RECONNECT_ATTEMPTS) := by
  refine ⟨?_, ?_, ?_, ?_, ?_, ?_⟩
  · intro s mid
    unfold handleClose
    dsimp only
    rw [if_neg (by simp)]
    split <;> rfl
  · intro s mid
    unfold handleClose
    dsimp only
    by_cases h : (((1008 : Nat) != 1000) &&
        decide (s.reconnectAttempts < MAX_RECONNECT_ATTEMPTS)) = true
    · rw [if_pos h, if_pos (by decide)]
    · rw [if_neg h]
      split <;> rfl
  · intro s mid h
    unfold handleClose
    dsimp only
    rw [if_pos (by simp [h]), if_pos (by decide)]
  · intro s mid code h1 h2 h3
    unfold handleClose
    dsimp only
    rw [if_pos (by simp [bne_iff_ne, h1, h3]), if_neg (by simp [h2])]
    exact ⟨rfl, rfl, rfl⟩
  · intro s mid code h1 h2
    unfold handleClose
    dsimp only
    rw [if_neg (by simp [bne_iff_ne]; omega), if_pos h2]
    exact ⟨rfl, rfl⟩
  · intro s mid code h
    unfold handleClose
    dsimp only
    by_cases hc : ((code != 1000) &&
        decide (s.reconnectAttempts < MAX_RECONNECT_ATTEMPTS)) = true
    · have hlt : s.reconnectAttempts < MAX_RECONNECT_ATTEMPTS := by
        rcases Bool.and_eq_true .. |>.mp hc with ⟨_, hd⟩
        exact of_decide_eq_true hd
      rw [if_pos hc]
      split <;> (dsimp only; omega)
    · rw [if_neg hc]
      split <;> (dsimp only; omega)

/-- C4 witness: the theorem applied at concrete states — a first 1008 close
reports the authentication message, and a 1006 close schedules one
reconnect after 3000 milliseconds. -/
theorem c4_witness :
    (handleClose initHook 1008 "m").flash =
      initHook.flash ++ ["Authentication failed. Please refresh the page."] ∧
    (handleClose initHook 1006 "m").scheduledDelays =
      initHook.scheduledDelays ++ [RECONNECT_DELAY] :=
  ⟨c4_close_policy.2.2.1 initHook "m" (by decide),
   (c4_close_policy.2.2.2.1 initHook "m" 1006 (by decide) (by decide) (by decide)).1⟩

/-- C4 counterexample: after three failed attempts the counter sits at the
ceiling, and a subsequent 1008 close reports the connection-lost message,
not the authentication message the claim requires. -/
theorem c4_counterexample :
    (let fin := runWS initHook
        [.connectCall "A" .ok, .closeEv 0 1006 "A", .timerFire .ok, .closeEv 1 1006 "A",
         .timerFire .ok, .closeEv 2 1006 "A", .timerFire .ok]
     fin.reconnectAttempts = MAX_RECONNECT_ATTEMPTS ∧
     (stepWS fin (.closeEv 3 1008 "A")).flash =
        ["Connection lost. Please refresh the page to reconnect."] ∧
     ((stepWS fin (.closeEv 3 1008 "A")).flash.contains
        "Authentication failed. Please refresh the page.") = false ∧
     (stepWS fin (.closeEv 3 1008 "A")).scheduledDelays = fin.scheduledDelays) := by decide

/-! ### Claim C5: at most one live connection per key -/

/-- C5 (amended): calling connect for the current mission id is a no-op
whenever the wsRef socket is open or the isConnecting flag is set, and also
when a connection has succeeded and the socket is still connecting; calling
connect with a different mission id closes the existing socket before the
new one is created. The guard reads the isConnecting flag rather than the
socket state, so after a stray close event of a discarded socket clears the
flag, a same-key connect can create a second live socket for the same
mission id, as the counterexample shows — the at-most-one-live-connection
invariant does not hold unconditionally. -/
theorem c5_connect_policy :
    (∀ (s : HookState) (mid : String) (env : ConnectEnv),
        s.currentMissionId = some mid →
        (refState s = some SockSt.opened ∨ s.isConnecting = true) →
        connect s mid env = s) ∧
    (∀ (s : HookState) (mid : String) (env : ConnectEnv),
        s.currentMissionId = some mid → s.hasConnected = true →
        refState s = some SockSt.connecting →
        connect s mid env = s) ∧
    (∀ (s : HookState) (mid : String) (env : ConnectEnv) (i : Nat) (so : Socket),
        s.currentMissionId ≠ none → s.currentMissionId ≠ some mid →
        s.wsRef = some i → s.sockets.get? i = some so →
        (connect s mid env).sockets.get? i =
          some { so with st := closeSockSt so.st } ∧
        (env = .ok →
          (connect s mid env).sockets.length = s.sockets.length + 1 ∧
          (connect s mid env).wsRef = some s.sockets.length)) := by
  refine ⟨?_, ?_, ?_⟩
  · intro s mid env h1 h2
    have hc : (s.currentMissionId == some mid &&
        (refState s == some SockSt.opened || s.isConnecting)) = true := by
      rw [Bool.and_eq_true, Bool.or_eq_true]
      refine ⟨by simp [h1], ?_⟩
      rcases h2 with h2 | h2
      · exact Or.inl (by simp [h2])
      · exact Or.inr h2
    unfold connect
    rw [if_pos hc]
  · intro s mid env h1 h2 h3
    unfold connect
    by_cases hc : (s.currentMissionId == some mid &&
        (refState s == some SockSt.opened || s.isConnecting)) = true
    · rw [if_pos hc]
    · rw [if_neg hc, if_pos]
      rw [Bool.and_eq_true, Bool.and_eq_true]
      exact ⟨⟨by simp [h1], h2⟩, by simp [h3]⟩
  · intro s mid env i so h1 h2 h3 h4
    have hmid : (s.currentMissionId == some mid) = false := beq_eq_false_iff_ne.mpr h2
    have hnone : (s.currentMissionId == none) = false := beq_eq_false_iff_ne.mpr h1
    have hlen : i < s.sockets.length := by
      by_contra hge
      rw [List.get?_eq_none.mpr (by omega)] at h4
      exact Option.noConfusion h4
    unfold connect
    rw [if_neg (by simp [hmid]), if_neg (by simp [hmid]),
        if_pos (by simp [hmid, hnone]), h3]
    cases env with
    | noUser =>
      exact ⟨get?_closeSockAt_self _ _ _ h4, by intro h; exact ConnectEnv.noConfusion h⟩
    | tokenFail =>
      exact ⟨get?_closeSockAt_self _ _ _ h4, by intro h; exact ConnectEnv.noConfusion h⟩
    | ok =>
      refine ⟨?_, fun _ => ⟨?_, ?_⟩⟩
      · rw [get?_append_of_lt _ _ _ (by rw [length_closeSockAt]; exact hlen)]
        exact get?_closeSockAt_self _ _ _ h4
      · simp [length_closeSockAt]
      · simp [length_closeSockAt]

/-- C5 witness: the theorem applied at a concrete connecting state — a
same-key connect with the flag set is a no-op. -/
theorem c5_witness :
    connect { initHook with currentMissionId := some "m", isConnecting := true } "m" .ok =
      { initHook with currentMissionId := some "m", isConnecting := true } :=
  c5_connect_policy.1 _ "m" .ok rfl (Or.inr rfl)

/-- C5 counterexample: connect for key A, then for key B (closing A's
socket), then A's close event arrives and clears the isConnecting flag while
B's socket is still connecting; a further connect for the same key B is not
a no-op and creates a second live socket for B. -/
theorem c5_counterexample :
    (let s3 := runWS initHook
        [.connectCall "A" .ok, .connectCall "B" .ok, .closeEv 0 1000 "A"]
     s3.currentMissionId = some "B" ∧ refState s3 = some SockSt.connecting ∧
     s3.isConnecting = false ∧ liveCount s3 "B" = 1 ∧
     connect s3 "B" .ok ≠ s3 ∧ liveCount (connect s3 "B" .ok) "B" = 2) := by decide

/-! ### Claim C6: sliding-window rate limiting -/

theorem mapGet_mapSet_self (m : List (String × List Int)) (k : String) (v : List Int) :
    mapGet (mapSet m k v) k = v := by
  induction m with
  | nil => simp [mapSet, mapGet, List.find?]
  | cons p rest ih =>
    unfold mapSet
    by_cases h : (p.1 == k) = true
    · rw [if_pos h]
      simp [mapGet, List.find?]
    · rw [if_neg h]
      unfold mapGet
      rw [List.find?_cons_of_neg _ (by simpa using h)]
      exact ih

theorem isAllowed_view (rl : RateLimiter) (k : String) (ma : Nat) (w t : Int) :
    (rl.isAllowed k ma w t).1 = (stepL ma w (mapGet rl.attempts k) t).1 ∧
    mapGet (rl.isAllowed k ma w t).2.attempts k = (stepL ma w (mapGet rl.attempts k) t).2 := by
  unfold RateLimiter.isAllowed stepL
  dsimp only
  split
  · exact ⟨rfl, rfl⟩
  · exact ⟨rfl, mapGet_mapSet_self _ _ _⟩

theorem runSeq_eq_runL (k : String) (ma : Nat) (w : Int) :
    ∀ (ts : List Int) (rl : RateLimiter),
      runSeq rl k ma w ts = runL ma w (mapGet rl.attempts k) ts := by
  intro ts
  induction ts with
  | nil => intro rl; rfl
  | cons t ts ih =>
    intro rl
    have h := isAllowed_view rl k ma w t
    show (rl.isAllowed k ma w t).1 :: runSeq (rl.isAllowed k ma w t).2 k ma w ts
       = (stepL ma w (mapGet rl.attempts k) t).1 ::
           runL ma w (stepL ma w (mapGet rl.attempts k) t).2 ts
    rw [h.1, ih ((rl.isAllowed k ma w t).2), h.2]

theorem runL_window_bound (ma : Nat) (w : Int) :
    ∀ (ts l pts : List Int) (lo : Int),
      (lo :: ts).Chain' (· ≤ ·) →
      (∀ now : Int, lo ≤ now →
          l.filter (fun s => decide (now - s < w)) =
          pts.filter (fun s => decide (now - s < w))) →
      (∀ tref : Int,
          (pts.filter (fun s => decide (tref - w < s) && decide (s ≤ tref))).length ≤ ma) →
      ∀ tref : Int,
        ((pts ++ trueTimes ts (runL ma w l ts)).filter
            (fun s => decide (tref - w < s) && decide (s ≤ tref))).length ≤ ma := by
  intro ts
  induction ts with
  | nil =>
    intro l pts lo _ _ hbound tref
    simpa [runL, trueTimes] using hbound tref
  | cons t ts ih =>
    intro l pts lo hch hrel hbound tref
    have hlot : lo ≤ t := (List.chain'_cons.mp hch).1
    have hch' : (t :: ts).Chain' (· ≤ ·) := (List.chain'_cons.mp hch).2
    by_cases hstep : ma ≤ (l.filter (fun s => decide (t - s < w))).length
    · have heq : stepL ma w l t = (false, l) := by
        unfold stepL
        dsimp only
        rw [if_pos hstep]
      show ((pts ++ trueTimes (t :: ts)
          ((stepL ma w l t).1 :: runL ma w (stepL ma w l t).2 ts)).filter
          (fun s => decide (tref - w < s) && decide (s ≤ tref))).length ≤ ma
      rw [heq]
      show ((pts ++ trueTimes ts (runL ma w l ts)).filter
          (fun s => decide (tref - w < s) && decide (s ≤ tref))).length ≤ ma
      exact ih l pts t hch' (fun now hn => hrel now (le_trans hlot hn)) hbound tref
    · have heq : stepL ma w l t =
          (true, l.filter (fun s => decide (t - s < w)) ++ [t]) := by
        unfold stepL
        dsimp only
        rw [if_neg hstep]
      show ((pts ++ trueTimes (t :: ts)
          ((stepL ma w l t).1 :: runL ma w (stepL ma w l t).2 ts)).filter
          (fun s => decide (tref - w < s) && decide (s ≤ tref))).length ≤ ma
      rw [heq]
      show ((pts ++ (t :: trueTimes ts
          (runL ma w (l.filter (fun s => decide (t - s < w)) ++ [t]) ts))).filter
          (fun s => decide (tref - w < s) && decide (s ≤ tref))).length ≤ ma
      have hassoc : pts ++ (t :: trueTimes ts
            (runL ma w (l.filter (fun s => decide (t - s < w)) ++ [t]) ts))
          = (pts ++ [t]) ++ trueTimes ts
            (runL ma w (l.filter (fun s => decide (t - s < w)) ++ [t]) ts) := by
        simp
      rw [hassoc]
      refine ih (l.filter (fun s => decide (t - s < w)) ++ [t]) (pts ++ [t]) t hch'
        ?_ ?_ tref
      · intro now hn
        rw [List.filter_append, List.filter_append, List.filter_filter]
        have hcollapse : l.filter
              (fun a => decide (now - a < w) && decide (t - a < w)) =
            l.filter (fun a => decide (now - a < w)) := by
          apply List.filter_congr
          intro a _
          by_cases hna : now - a < w
          · have hta : t - a < w := by omega
            simp [hna, hta]
          · simp [hna]
        rw [hcollapse, hrel now (le_trans hlot hn)]
      · intro tref2
        rw [List.filter_append]
        by_cases ht : (decide (tref2 - w < t) && decide (t ≤ tref2)) = true
        · rw [Bool.and_eq_true, decide_eq_true_eq, decide_eq_true_eq] at ht
          have himp : ∀ a ∈ pts,
              (decide (tref2 - w < a) && decide (a ≤ tref2)) = true →
              decide (t - a < w) = true := by
            intro a _ ha
            rw [Bool.and_eq_true, decide_eq_true_eq, decide_eq_true_eq] at ha
            rw [decide_eq_true_eq]
            omega
          have h2 : (pts.filter
                (fun s => decide (tref2 - w < s) && decide (s ≤ tref2))).length ≤
              (pts.filter (fun s => decide (t - s < w))).length := by
            rw [← List.countP_eq_length_filter, ← List.countP_eq_length_filter]
            exact List.countP_mono_left himp
          have h3 : (pts.filter (fun s => decide (t - s < w))).length =
              (l.filter (fun s => decide (t - s < w))).length := by
            rw [hrel t hlot]
          have h4 : ([t].filter
              (fun s => decide (tref2 - w < s) && decide (s ≤ tref2))).length ≤ 1 :=
            List.length_filter_le _ _
          rw [List.length_append]
          omega
        · have hzero : [t].filter
              (fun s => decide (tref2 - w < s) && decide (s ≤ tref2)) = [] := by
            simp only [List.filter, ht]
          rw [hzero, List.append_nil]
          exact hbound tref2

theorem runL_all_true (ma : Nat) (w : Int) :
    ∀ (ts l : List Int),
      (l ++ ts).Pairwise (fun a b => b - a < w) →
      l.length + ts.length ≤ ma →
      runL ma w l ts = List.replicate ts.length true ∧ finalL ma w l ts = l ++ ts := by
  intro ts
  induction ts with
  | nil =>
    intro l _ _
    exact ⟨rfl, by simp [finalL]⟩
  | cons t ts ih =>
    intro l hp hlen
    have hfilter : l.filter (fun s => decide (t - s < w)) = l := by
      rw [List.filter_eq_self]
      intro a ha
      rw [decide_eq_true_eq]
      exact (List.pairwise_append.mp hp).2.2 a ha t (by simp)
    have hstep : stepL ma w l t = (true, l ++ [t]) := by
      unfold stepL
      dsimp only
      rw [hfilter, if_neg (by simp at hlen ⊢; omega)]
    have hp' : ((l ++ [t]) ++ ts).Pairwise (fun a b => b - a < w) := by
      rw [List.append_assoc]
      simpa using hp
    have hlen' : (l ++ [t]).length + ts.length ≤ ma := by
      simp at hlen ⊢
      omega
    obtain ⟨h1, h2⟩ := ih (l ++ [t]) hp' hlen'
    constructor
    · show (stepL ma w l t).1 :: runL ma w (stepL ma w l t).2 ts =
        List.replicate (ts.length + 1) true
      rw [hstep]
      show true :: runL ma w (l ++ [t]) ts = List.replicate (ts.length + 1) true
      rw [h1]
      rfl
    · show finalL ma w (stepL ma w l t).2 ts = l ++ t :: ts
      rw [hstep]
      show finalL ma w (l ++ [t]) ts = l ++ t :: ts
      rw [h2]
      simp

theorem runL_append (ma : Nat) (w : Int) :
    ∀ (ts1 ts2 l : List Int),
      runL ma w l (ts1 ++ ts2) = runL ma w l ts1 ++ runL ma w (finalL ma w l ts1) ts2 := by
  intro ts1
  induction ts1 with
  | nil => intro ts2 l; rfl
  | cons t ts1 ih =>
    intro ts2 l
    show (stepL ma w l t).1 :: runL ma w (stepL ma w l t).2 (ts1 ++ ts2) = _
    rw [ih ts2 (stepL ma w l t).2]
    rfl

/-- C6 (amended): for monotonically nondecreasing call times — JS Date.now
moving forward — isAllowed on a fresh limiter never allows more than
maxAttempts calls whose times fall inside any half-open window of length
windowMs; and for a fresh key, maxAttempts calls within one window are all
allowed, the next call inside the window is refused, and a call made once
windowMs has elapsed past the oldest entry is allowed again. For arbitrary
(non-monotone) call times the window bound fails, as the counterexample
shows. -/
theorem c6_rate_limiter_window (k : String) (ma : Nat) (w : Int) :
    (∀ ts : List Int, ts.Chain' (· ≤ ·) → ∀ tref : Int,
        ((trueTimes ts (runSeq RateLimiter.new k ma w ts)).filter
            (fun s => decide (tref - w < s) && decide (s ≤ tref))).length ≤ ma) ∧
    (∀ (t1 : Int) (rest : List Int) (tnext tafter : Int),
        (t1 :: rest).length = ma →
        ((t1 :: rest) ++ [tnext]).Pairwise (fun a b => b - a < w) →
        ((t1 :: rest) ++ [tnext, tafter]).Chain' (· ≤ ·) →
        w ≤ tafter - t1 →
        runSeq RateLimiter.new k ma w ((t1 :: rest) ++ [tnext, tafter]) =
          List.replicate ma true ++ [false, true]) := by
  constructor
  · intro ts hmono tref
    rw [runSeq_eq_runL]
    have hget : mapGet RateLimiter.new.attempts k = [] := rfl
    rw [hget]
    cases ts with
    | nil => simp [runL, trueTimes]
    | cons t ts =>
      have hch : (t :: t :: ts).Chain' (· ≤ ·) :=
        List.chain'_cons.mpr ⟨le_refl t, hmono⟩
      have := runL_window_bound ma w (t :: ts) [] [] t hch
        (fun _ _ => rfl) (by intro _; simp) tref
      simpa using this
  · intro t1 rest tnext tafter hlen hpair hmono hafter
    rw [runSeq_eq_runL]
    have hget : mapGet RateLimiter.new.attempts k = [] := rfl
    rw [hget]
    have hpfirst : ([] ++ (t1 :: rest)).Pairwise (fun a b : Int => b - a < w) := by
      simp only [List.nil_append]
      exact hpair.sublist (List.sublist_append_left _ _)
    obtain ⟨hrep, hfin⟩ := runL_all_true ma w (t1 :: rest) [] hpfirst
      (by simp [hlen])
    rw [runL_append ma w (t1 :: rest) [tnext, tafter] []]
    rw [hrep, hfin]
    simp only [List.nil_append, hlen]
    congr 1
    -- first call at tnext: the full stored list survives pruning, cap reached
    have hfilter1 : (t1 :: rest).filter (fun s => decide (tnext - s < w)) = t1 :: rest := by
      rw [List.filter_eq_self]
      intro a ha
      rw [decide_eq_true_eq]
      exact (List.pairwise_append.mp hpair).2.2 a ha tnext (by simp)
    have hstep1 : stepL ma w (t1 :: rest) tnext = (false, t1 :: rest) := by
      unfold stepL
      dsimp only
      rw [hfilter1, if_pos (by rw [hlen])]
    -- second call at tafter: the oldest entry t1 has left the window
    have hfilter2 : ((t1 :: rest).filter (fun s => decide (tafter - s < w))).length < ma := by
      have h1 : (t1 :: rest).filter (fun s => decide (tafter - s < w)) =
          rest.filter (fun s => decide (tafter - s < w)) := by
        rw [List.filter_cons_of_neg]
        rw [decide_eq_true_eq]
        omega
      rw [h1]
      have h2 : (rest.filter (fun s => decide (tafter - s < w))).length ≤ rest.length :=
        List.length_filter_le _ _
      have h3 : rest.length + 1 = ma := by simpa using hlen
      omega
    have hstep2 : (stepL ma w (t1 :: rest) tafter).1 = true := by
      unfold stepL
      dsimp only
      rw [if_neg (by omega)]
    show (stepL ma w (t1 :: rest) tnext).1 ::
        runL ma w (stepL ma w (t1 :: rest) tnext).2 [tafter] = [false, true]
    rw [hstep1]
    show false :: (stepL ma w (t1 :: rest) tafter).1 ::
        runL ma w (stepL ma w (t1 :: rest) tafter).2 [] = [false, true]
    rw [hstep2]
    rfl

/-- C6 witness: the window bound applied at a concrete monotone trace, and
the scenario applied at a fresh key with cap two and a ten-millisecond
window. -/
theorem c6_witness :
    ((trueTimes [0, 5, 7] (runSeq RateLimiter.new "k" 2 10 [0, 5, 7])).filter
        (fun s => decide ((7 : Int) - 10 < s) && decide (s ≤ 7))).length ≤ 2 ∧
    runSeq RateLimiter.new "k" 2 10 [0, 1, 2, 10] = [true, true, false, true] := by
  constructor
  · exact (c6_rate_limiter_window "k" 2 10).1 [0, 5, 7]
      (by simp [List.chain'_cons]) 7
  · have h := (c6_rate_limiter_window "k" 2 10).2 0 [1] 2 10 (by decide) (by decide)
      (by simp [List.chain'_cons]) (by decide)
    simpa using h

/-- C6 counterexample: at non-monotone call times — the clock stepping
backwards between calls — four calls are all allowed although three of their
timestamps lie inside one ten-millisecond window, beating the cap of two;
the claim quantified over arbitrary times is therefore false. -/
theorem c6_counterexample :
    runSeq RateLimiter.new "k" 2 10 [0, 1, 100, 5] = [true, true, true, true] ∧
    ((trueTimes [0, 1, 100, 5] (runSeq RateLimiter.new "k" 2 10 [0, 1, 100, 5])).filter
        (fun s => decide ((5 : Int) - 10 < s) && decide (s ≤ 5))).length = 3 := by decide

end LearnForge
